import Mathlib

/-!
Verification development for the gamecache configuration scripts.

The embedding models `scripts/gamecache/config.py` (`parse_config_file`,
`create_nested_config`) and `scripts/setup_bgg_token.py`
(`generate_token_via_worker`, `save_token_to_config`, and the persistence
branch of `main`).  Files are modelled as lists of raw lines (each line
carrying its trailing newline where the source file has one), the
filesystem as a map from paths to optional contents, parsed JSON payloads
as association lists of Python values, and Python exceptions as `Except`
results.
-/

deriving instance DecidableEq for Except

namespace Gamecache

/-- Python string whitespace for `str.strip()`: space, tab, newline,
carriage return, vertical tab, form feed. -/
def pyIsSpace (c : Char) : Bool :=
  c == ' ' || c == '\t' || c == '\n' || c == '\r' || c == '\x0b' || c == '\x0c'

/-- Python `str.strip()`: drop leading and trailing whitespace. -/
def pyStrip (s : String) : String :=
  ⟨((s.data.dropWhile pyIsSpace).reverse.dropWhile pyIsSpace).reverse⟩

/-- Python `s.startswith(p)`. -/
def strStarts (p s : String) : Bool :=
  p.data.isPrefixOf s.data

/-- The `=` character used by the key=value syntax. -/
def eqc : Char := '='

/-- The double-quote character. -/
def dquote : Char := '"'

/-- The single-quote character (code point 39). -/
def squote : Char := Char.ofNat 39

/-- Python `s.split(sep, 1)` on a single character, returning the part
before the first occurrence and the part after it (the whole string and
an empty remainder when the character is absent). -/
def splitAtEq : List Char → List Char × List Char
  | [] => ([], [])
  | c :: cs =>
    if c == eqc then ([], cs)
    else
      let p := splitAtEq cs
      (c :: p.1, p.2)

/-- Quote stripping of `parse_config_file`: if the value starts and ends
with a double quote, or starts and ends with a single quote, remove the
first and last character (`value[1:-1]`); otherwise keep the value. -/
def stripQuotes (v : String) : String :=
  if v.data.head? == some dquote && v.data.getLast? == some dquote then
    ⟨(v.data.drop 1).dropLast⟩
  else if v.data.head? == some squote && v.data.getLast? == some squote then
    ⟨(v.data.drop 1).dropLast⟩
  else v

/-- Error raised by `parse_config_file`: `ValueError` for a line without
`=`, carrying the 1-based line number and the stripped line content. -/
inductive ConfigError where
  | invalidFormat (lineNum : Nat) (content : String)
deriving DecidableEq, Repr

/-- The loop body of `parse_config_file`: `n` is the 1-based number of the
next line, `acc` the bindings inserted so far (in insertion order, later
duplicates appended; lookup takes the last occurrence). -/
def parseLoop (n : Nat) (acc : List (String × String)) :
    List String → Except ConfigError (List (String × String))
  | [] => .ok acc
  | l :: ls =>
    let s := pyStrip l
    if s == "" || strStarts "#" s then parseLoop (n + 1) acc ls
    else if !(s.data.contains eqc) then .error (.invalidFormat n s)
    else
      let kv := splitAtEq s.data
      parseLoop (n + 1) (acc ++ [(pyStrip ⟨kv.1⟩, stripQuotes (pyStrip ⟨kv.2⟩))]) ls

/-- `parse_config_file` on the lines of an existing file (the absent-file
`FileNotFoundError` path is not modelled; the claims under study concern
line handling). -/
def parse_config_file (lines : List String) :
    Except ConfigError (List (String × String)) :=
  parseLoop 1 [] lines

/-- Python `dict` lookup (`config.get(k)` / `k in config`) on the
association-list model: the value of the last binding for the key. -/
def cfgGet (cfg : List (String × String)) (k : String) : Option String :=
  ((cfg.filter (fun p => p.1 == k)).getLast?).map (fun p => p.2)

/-- Whether a raw line is skipped by the parser: blank after stripping, or
comment. -/
def skipLine (l : String) : Bool :=
  pyStrip l == "" || strStarts "#" (pyStrip l)

/-- Whether a raw line contains `=` after stripping. -/
def lineHasEq (l : String) : Bool :=
  (pyStrip l).data.contains eqc

/-- The binding a single line contributes: `none` for skipped lines and
for lines without `=` (which abort the parse), otherwise the
(key, value) pair after trimming and quote stripping. -/
def lineEntry (l : String) : Option (String × String) :=
  let s := pyStrip l
  if s == "" || strStarts "#" s then none
  else if !(s.data.contains eqc) then none
  else
    some (pyStrip ⟨(splitAtEq s.data).1⟩, stripQuotes (pyStrip ⟨(splitAtEq s.data).2⟩))

/-- Value of the last non-skipped, `=`-containing line whose trimmed key
equals `k` (the value predicted by last-write-wins). -/
def lastValue (lines : List String) (k : String) : Option String :=
  (((lines.filterMap lineEntry).filter (fun p => p.1 == k)).getLast?).map (fun p => p.2)

/-- Truthiness of an optional string, as Python sees the `bgg_token`
variable: `None` and the empty string are falsy. -/
def optTruthy (o : Option String) : Bool :=
  match o with
  | some v => !(v == "")
  | none => false

/-- The inner loop of `create_nested_config` over one dotenv file: the
first line whose stripped content starts with `GAMECACHE_BGG_TOKEN=`
yields everything after the first `=`, stripped; the loop breaks there
even when that value is empty. -/
def scanEnvLines : List String → Option String
  | [] => none
  | l :: ls =>
    let s := pyStrip l
    if strStarts "GAMECACHE_BGG_TOKEN=" s then some (pyStrip ⟨(splitAtEq s.data).2⟩)
    else scanEnvLines ls

/-- The candidate-file loop of `create_nested_config`: `acc` is the value
of the Python `bgg_token` variable so far; a non-existing candidate
(`none`) is skipped; an existing file overwrites `acc` when it has a
matching line; the loop breaks as soon as `acc` is truthy. -/
def dotenvLoop (acc : Option String) : List (Option (List String)) → Option String
  | [] => acc
  | c :: cs =>
    match c with
    | none => dotenvLoop acc cs
    | some ls =>
      let acc1 := match scanEnvLines ls with
        | some v => some v
        | none => acc
      if optTruthy acc1 then acc1 else dotenvLoop acc1 cs

/-- The nested structure built by `create_nested_config`:
`project.title`, `boardgamegeek.user_name`, optional
`boardgamegeek.token`, `github.repo`. -/
structure NestedConfig where
  project_title : String
  bgg_user_name : String
  github_repo : String
  bgg_token : Option String
deriving DecidableEq, Repr

/-- `create_nested_config`: `config` is the flat mapping, `envToken` the
value of the environment variable `GAMECACHE_BGG_TOKEN` (`none` when
unset), `cands` the candidate dotenv files in order (each `none` when the
file does not exist, else its lines).  A missing required key raises
`KeyError`, modelled as `Except.error` carrying the key name; the three
keys are read in the order the Python dict literal evaluates them. -/
def create_nested_config (config : List (String × String))
    (envToken : Option String) (cands : List (Option (List String))) :
    Except String NestedConfig :=
  match cfgGet config "title" with
  | none => .error "title"
  | some title =>
    match cfgGet config "bgg_username" with
    | none => .error "bgg_username"
    | some user =>
      match cfgGet config "github_repo" with
      | none => .error "github_repo"
      | some repo =>
        let t0 := envToken
        let t1 := if optTruthy t0 then t0 else dotenvLoop t0 cands
        if optTruthy t1 then .ok ⟨title, user, repo, t1⟩
        else
          match cfgGet config "bgg_token" with
          | some c => .ok ⟨title, user, repo, some c⟩
          | none => .ok ⟨title, user, repo, none⟩

/-- The canonical secrets line `GAMECACHE_BGG_TOKEN=token` with its
trailing newline, as written by `save_token_to_config`. -/
def canonLine (token : String) : String :=
  "GAMECACHE_BGG_TOKEN=" ++ token ++ "\n"

/-- Whether a raw line of the secrets file is replaced by
`save_token_to_config`: its stripped content starts with
`GAMECACHE_BGG_TOKEN` (no `=` required). -/
def tokenLineMatch (l : String) : Bool :=
  strStarts "GAMECACHE_BGG_TOKEN" (pyStrip l)

/-- The read loop of `save_token_to_config`: `acc` accumulates
`env_lines`, `te` is the `token_exists` flag. -/
def saveLoop (token : String) : List String → List String → Bool → List String × Bool
  | [], acc, te => (acc, te)
  | l :: ls, acc, te =>
    if tokenLineMatch l then saveLoop token ls (acc ++ [canonLine token]) true
    else saveLoop token ls (acc ++ [l]) te

/-- `save_token_to_config` at the level of the secrets file content:
`prior` is the file before the call (`none` when it does not exist); the
result is the list of lines written and the returned success flag. -/
def save_token_to_config (token : String) (prior : Option (List String)) :
    List String × Bool :=
  let p := match prior with
    | none => (([] : List String), false)
    | some ls => saveLoop token ls [] false
  let out := if p.2 then p.1 else p.1 ++ [canonLine token]
  (out, true)

/-- A filesystem path split as directory plus final component, the level
at which `save_token_to_config` manipulates paths
(`Path(config_path).parent / ".env"`). -/
structure FsPath where
  dir : String
  base : String
deriving DecidableEq, Repr

/-- The sibling secrets-file path derived from the config path: same
directory, fixed base name `.env`. -/
def envPathOf (cp : FsPath) : FsPath :=
  ⟨cp.dir, ".env"⟩

/-- `save_token_to_config` as a filesystem transformer: it reads the
sibling `.env` of the config path, rewrites that one path with the merged
lines, and returns the new filesystem and the success flag. -/
def save_token_fs (token : String) (cp : FsPath)
    (fs : FsPath → Option (List String)) :
    (FsPath → Option (List String)) × Bool :=
  let r := save_token_to_config token (fs (envPathOf cp))
  (fun p => if p = envPathOf cp then some r.1 else fs p, r.2)

/-- The persistence-failure branch guard in `main`:
`if not save_token_to_config(token): ...` for a given prior secrets-file
state. -/
def mainPersistFailure (token : String) (prior : Option (List String)) : Bool :=
  !(save_token_to_config token prior).2

/-- A parsed JSON value as Python sees it (the payload fields the worker
response can carry). -/
inductive PyVal where
  | null
  | bool (b : Bool)
  | str (s : String)
  | int (n : Int)
deriving DecidableEq, Repr

/-- Python truthiness of a payload value. -/
def pyTruthy : PyVal → Bool
  | .null => false
  | .bool b => b
  | .str s => !(s == "")
  | .int n => !(n == 0)

/-- A parsed JSON object as an association list of fields. -/
abbrev Payload := List (String × PyVal)

/-- Python `dict.get(k)` on a payload: `None` when absent, the last
binding otherwise (JSON parsing keeps the last duplicate key). -/
def dget (d : Payload) (k : String) : PyVal :=
  match (d.filter (fun p => p.1 == k)).getLast? with
  | some p => p.2
  | none => .null

/-- Outcome of `generate_token_via_worker` on a parsed payload: the
returned token, or the unexpected-response diagnostic carrying the
payload, or the no-response-data failure. -/
inductive TokenResult where
  | success (tok : PyVal)
  | unexpected (d : Payload)
  | noData
deriving DecidableEq, Repr

/-- The response interpretation of `generate_token_via_worker`: `data` is
the parsed payload returned by the transport (`none` when the transport
yielded no data).  `if data and data.get(s) and data.get(t)` succeeds
with `data[t]`; `elif data` surfaces the payload; `else` reports no
response data.  An empty object is falsy in Python, so it falls to the
final branch. -/
def generate_token_via_worker (data : Option Payload) : TokenResult :=
  match data with
  | some d =>
    if !d.isEmpty && pyTruthy (dget d "success") && pyTruthy (dget d "token") then
      .success (dget d "token")
    else if !d.isEmpty then .unexpected d
    else .noData
  | none => .noData

/-- Quote stripping as the amended specification words it: the quotes are
removed exactly when the value's first and last character are both a
double quote or both a single quote (so also for a length-1 value, where
removing first and last character leaves the empty string). -/
def specStripQuotes (t : String) : String :=
  if (t.data.head? == some dquote && t.data.getLast? == some dquote)
      || (t.data.head? == some squote && t.data.getLast? == some squote) then
    ⟨(t.data.drop 1).dropLast⟩
  else t

/-- Quote stripping as the original claim words it: stripping additionally
requires the value's length to be at least 2. -/
def claimStripQuotes (t : String) : String :=
  if 2 ≤ t.data.length
      ∧ ((t.data.head? = some dquote ∧ t.data.getLast? = some dquote)
        ∨ (t.data.head? = some squote ∧ t.data.getLast? = some squote)) then
    ⟨(t.data.drop 1).dropLast⟩
  else t

/-- The value the dotenv scanning step of the specification resolves: the
first candidate file (existing ones only) whose first matching line
yields a non-empty value, that value. -/
def firstNonEmptyFileValue : List (Option (List String)) → Option String
  | [] => none
  | none :: cs => firstNonEmptyFileValue cs
  | some ls :: cs =>
    match scanEnvLines ls with
    | some v => if v == "" then firstNonEmptyFileValue cs else some v
    | none => firstNonEmptyFileValue cs

/-- The resolved token as the amended claim words the precedence: the
environment variable when set to a non-empty value; otherwise the first
candidate dotenv file yielding a non-empty value; otherwise the flat
config's `bgg_token` field when present; otherwise nothing. -/
def specResolvedToken (envToken : Option String)
    (cands : List (Option (List String))) (config : List (String × String)) :
    Option String :=
  if optTruthy envToken then envToken
  else
    match firstNonEmptyFileValue cands with
    | some v => some v
    | none => cfgGet config "bgg_token"

















/-- Normalise an optional string through Python truthiness: falsy values
(`none` and the empty string) collapse to `none`. -/
def optNorm (o : Option String) : Option String :=
  if optTruthy o then o else none

lemma saveLoop_spec (token : String) :
    ∀ (ls acc : List String) (te : Bool),
      saveLoop token ls acc te =
        (acc ++ ls.map (fun l => if tokenLineMatch l then canonLine token else l),
          te || ls.any tokenLineMatch) := by
  intro ls
  induction ls with
  | nil => intro acc te; simp [saveLoop]
  | cons l ls ih =>
    intro acc te
    by_cases h : tokenLineMatch l
    · simp [saveLoop, h, ih]
    · simp [saveLoop, h, ih]

lemma parseLoop_cons (n : Nat) (acc : List (String × String)) (l : String)
    (ls : List String) :
    parseLoop n acc (l :: ls) =
      if skipLine l then parseLoop (n + 1) acc ls
      else if !(lineHasEq l) then .error (.invalidFormat n (pyStrip l))
      else
        parseLoop (n + 1)
          (acc ++ [(pyStrip ⟨(splitAtEq (pyStrip l).data).1⟩,
            stripQuotes (pyStrip ⟨(splitAtEq (pyStrip l).data).2⟩))]) ls := rfl

lemma lineEntry_eq (l : String) :
    lineEntry l =
      if skipLine l then none
      else if !(lineHasEq l) then none
      else
        some (pyStrip ⟨(splitAtEq (pyStrip l).data).1⟩,
          stripQuotes (pyStrip ⟨(splitAtEq (pyStrip l).data).2⟩)) := rfl

lemma parseLoop_ok (ls : List String) :
    ∀ (n : Nat) (acc : List (String × String)),
      (∀ l ∈ ls, skipLine l = true ∨ lineHasEq l = true) →
      parseLoop n acc ls = .ok (acc ++ ls.filterMap lineEntry) := by
  induction ls with
  | nil => intro n acc _; simp [parseLoop]
  | cons l ls ih =>
    intro n acc h
    have hl := h l (List.mem_cons_self l ls)
    have htail : ∀ x ∈ ls, skipLine x = true ∨ lineHasEq x = true :=
      fun x hx => h x (List.mem_cons_of_mem l hx)
    rw [parseLoop_cons]
    by_cases hs : skipLine l
    · have hnone : lineEntry l = none := by rw [lineEntry_eq]; simp [hs]
      simp only [hs, if_true, List.filterMap_cons, hnone]
      exact ih (n + 1) acc htail
    · have he : lineHasEq l = true := by
        rcases hl with h1 | h1
        · exact absurd h1 hs
        · exact h1
      have hsome : lineEntry l =
          some (pyStrip ⟨(splitAtEq (pyStrip l).data).1⟩,
            stripQuotes (pyStrip ⟨(splitAtEq (pyStrip l).data).2⟩)) := by
        rw [lineEntry_eq]; simp [hs, he]
      simp only [hs, if_false, he, Bool.not_true, List.filterMap_cons, hsome,
        Bool.false_eq_true, if_neg]
      rw [ih (n + 1) _ htail]
      simp

lemma parseLoop_error (ls : List String) :
    ∀ (n : Nat) (acc : List (String × String)) (i : Nat),
      i < ls.length →
      skipLine (ls.getD i "") = false →
      lineHasEq (ls.getD i "") = false →
      (∀ j, j < i → skipLine (ls.getD j "") = true ∨ lineHasEq (ls.getD j "") = true) →
      parseLoop n acc ls = .error (.invalidFormat (n + i) (pyStrip (ls.getD i ""))) := by
  induction ls with
  | nil => intro n acc i hi; simp at hi
  | cons l ls ih =>
    intro n acc i hi hskip heq hfirst
    rw [parseLoop_cons]
    match i with
    | 0 =>
      simp only [List.getD_cons_zero] at hskip heq
      simp [hskip, heq]
    | i + 1 =>
      simp only [List.getD_cons_succ] at hskip heq ⊢
      have htail : ∀ j, j < i →
          skipLine (ls.getD j "") = true ∨ lineHasEq (ls.getD j "") = true := by
        intro j hj
        have := hfirst (j + 1) (Nat.succ_lt_succ hj)
        simpa using this
      have hlen : i < ls.length := by simpa using Nat.lt_of_succ_lt_succ hi
      have harith : n + 1 + i = n + (i + 1) := by omega
      by_cases hs : skipLine l
      · simp only [hs, if_true]
        rw [ih (n + 1) acc i hlen hskip heq htail, harith]
      · have h1 : lineHasEq l = true := by
          rcases hfirst 0 (Nat.succ_pos i) with h2 | h2
          · exact absurd (by simpa using h2) hs
          · simpa using h2
        simp only [hs, h1, if_false, Bool.not_true, Bool.false_eq_true, ite_false]
        rw [ih (n + 1) _ i hlen hskip heq htail, harith]

lemma dotenvLoop_norm (cands : List (Option (List String))) :
    ∀ acc, optTruthy acc = false →
      optNorm (dotenvLoop acc cands) = firstNonEmptyFileValue cands := by
  induction cands with
  | nil => intro acc h; simp [dotenvLoop, firstNonEmptyFileValue, optNorm, h]
  | cons c cs ih =>
    intro acc h
    match c with
    | none => simpa [dotenvLoop, firstNonEmptyFileValue] using ih acc h
    | some ls =>
      simp only [dotenvLoop, firstNonEmptyFileValue]
      cases hscan : scanEnvLines ls with
      | none => simp [h, ih acc h]
      | some v =>
        by_cases hv : v == ""
        · have hve : v = "" := by simpa using hv
          simp only [hve, optTruthy]
          simp [ih (some "") (by simp [optTruthy])]
        · simp [optTruthy, hv, optNorm]

/-- C2: for every token string and prior secrets-file state,
`save_token_to_config` returns success; with no existing file it writes
exactly the canonical line; with an existing file every line whose
trimmed content starts with the token variable name is replaced by the
canonical line, all other lines are preserved verbatim in order, and the
canonical line is appended exactly when no line matched. -/
theorem c2_persister_postcondition (token : String) (prior : Option (List String)) :
    (save_token_to_config token prior).2 = true ∧
    (prior = none → (save_token_to_config token prior).1 = [canonLine token]) ∧
    (∀ ls, prior = some ls →
      (save_token_to_config token prior).1 =
        ls.map (fun l => if tokenLineMatch l then canonLine token else l) ++
          (if ls.any tokenLineMatch then [] else [canonLine token])) := by
  refine ⟨?_, ?_, ?_⟩
  · cases prior <;> simp [save_token_to_config]
  · intro h; subst h; simp [save_token_to_config]
  · intro ls h; subst h
    simp only [save_token_to_config, saveLoop_spec]
    by_cases hany : ls.any tokenLineMatch
    · simp [hany]
    · simp [hany]

/-- Witness for C2 at a concrete prior file and at the no-file case. -/
theorem c2_witness :
    (save_token_to_config "TKN" (some ["X=1\n", " GAMECACHE_BGG_TOKEN=old\n", "Y=2\n"])).1 =
      ["X=1\n", "GAMECACHE_BGG_TOKEN=TKN\n", "Y=2\n"] ∧
    (save_token_to_config "TKN" none).1 = ["GAMECACHE_BGG_TOKEN=TKN\n"] ∧
    (save_token_to_config "TKN" none).2 = true := by
  have h1 := c2_persister_postcondition "TKN"
    (some ["X=1\n", " GAMECACHE_BGG_TOKEN=old\n", "Y=2\n"])
  have h2 := c2_persister_postcondition "TKN" none
  refine ⟨?_, h2.2.1 rfl, h2.1⟩
  rw [h1.2.2 _ rfl]
  decide

/-- C5: the quote stripping of `parse_config_file` removes the first and
last character exactly when the trimmed value starts and ends with a
double quote or starts and ends with a single quote — including a
length-1 value consisting of one quote character, where the result is the
empty string (this is where the original claim's length-at-least-2
condition fails). -/
theorem c5_quote_stripping : ∀ v : String, stripQuotes v = specStripQuotes v := by
  intro v
  simp only [stripQuotes, specStripQuotes]
  by_cases h1 : (v.data.head? == some dquote && v.data.getLast? == some dquote) = true
  · simp [h1]
  · by_cases h2 : (v.data.head? == some squote && v.data.getLast? == some squote) = true
    · simp [h1, h2]
    · simp [h1, h2]

/-- Counterexample for C5 as stated: a value consisting of a single
double-quote character has length 1, so the claim keeps it as is, but the
code strips it to the empty string; the line `k="` parses to the empty
value. -/
theorem c5_counterexample :
    stripQuotes ⟨[dquote]⟩ = "" ∧
    claimStripQuotes ⟨[dquote]⟩ = ⟨[dquote]⟩ ∧
    parse_config_file [⟨['k', '=', dquote]⟩] = .ok [("k", "")] ∧
    ("" : String) ≠ ⟨[dquote]⟩ := by decide

/-- C8: when every line is skipped or contains `=`, parsing succeeds with
no duplicate-key error, and the mapping binds each key to the value of
the last valid line for that key. -/
theorem c8_last_write_wins (lines : List String)
    (h : ∀ l ∈ lines, skipLine l = true ∨ lineHasEq l = true) :
    ∃ cfg, parse_config_file lines = .ok cfg ∧
      ∀ k, cfgGet cfg k = lastValue lines k := by
  refine ⟨lines.filterMap lineEntry, ?_, ?_⟩
  · have := parseLoop_ok lines 1 [] h
    simpa [parse_config_file] using this
  · intro k; rfl

/-- Witness for C8: `a=1` then `a=2` parses without error and looks up to
`2`. -/
theorem c8_witness :
    ∃ cfg, parse_config_file ["a=1", "a=2"] = .ok cfg ∧ cfgGet cfg "a" = some "2" := by
  obtain ⟨cfg, hok, hget⟩ := c8_last_write_wins ["a=1", "a=2"] (by decide)
  refine ⟨cfg, hok, ?_⟩
  rw [hget "a"]
  decide

/-- C9: the matching of `save_token_to_config` only tests that a trimmed
line starts with `GAMECACHE_BGG_TOKEN`, so every such line — including
one for a differently named variable like `GAMECACHE_BGG_TOKEN_OLD` — is
replaced by the canonical line. -/
theorem c9_replaces_by_bare_name (token : String) (ls : List String) (i : Nat)
    (hi : i < ls.length)
    (hm : tokenLineMatch ls[i] = true) :
    ((save_token_to_config token (some ls)).1)[i]? = some (canonLine token) := by
  simp only [save_token_to_config, saveLoop_spec]
  have hmap : (ls.map (fun l => if tokenLineMatch l then canonLine token else l))[i]? =
      some (canonLine token) := by
    rw [List.getElem?_map, List.getElem?_eq_getElem hi]
    simp [hm]
  cases hany : ls.any tokenLineMatch with
  | true => simpa [hany] using hmap
  | false =>
    have happ : ((List.map (fun l => if tokenLineMatch l then canonLine token else l) ls) ++
        [canonLine token])[i]? = some (canonLine token) := by
      rw [List.getElem?_append]
      rw [if_pos (by simpa using hi)]
      exact hmap
    simpa [hany] using happ

/-- Witness for C9: a `GAMECACHE_BGG_TOKEN_OLD=x` line is matched and
replaced even though its variable name only has the token name as a
prefix. -/
theorem c9_witness :
    tokenLineMatch "GAMECACHE_BGG_TOKEN_OLD=x\n" = true ∧
    ((save_token_to_config "T" (some ["GAMECACHE_BGG_TOKEN_OLD=x\n"])).1)[0]? =
      some (canonLine "T") :=
  ⟨by decide,
    c9_replaces_by_bare_name "T" ["GAMECACHE_BGG_TOKEN_OLD=x\n"] 0 (by decide) (by decide)⟩

/-- C10: `save_token_to_config` returns `True` on every execution that
returns normally, so the persistence-failure branch of `main` is never
taken. -/
theorem c10_save_always_succeeds :
    ∀ (token : String) (prior : Option (List String)),
      (save_token_to_config token prior).2 = true ∧
      mainPersistFailure token prior = false := by
  intro token prior
  constructor
  · cases prior <;> simp [save_token_to_config]
  · cases prior <;> simp [mainPersistFailure, save_token_to_config]

/-- C6: lines blank after trimming or starting with `#` are skipped — a
file of only such lines yields the empty mapping — and a remaining line
without `=`, when every earlier line is skipped or valid, makes
`parse_config_file` fail with InvalidFormat carrying the 1-based number
and the content of that line. -/
theorem c6_line_handling (lines : List String) :
    ((∀ l ∈ lines, skipLine l = true) → parse_config_file lines = .ok []) ∧
    (∀ i, i < lines.length →
      skipLine (lines.getD i "") = false →
      lineHasEq (lines.getD i "") = false →
      (∀ j, j < i → skipLine (lines.getD j "") = true ∨ lineHasEq (lines.getD j "") = true) →
      parse_config_file lines =
        .error (.invalidFormat (i + 1) (pyStrip (lines.getD i "")))) := by
  constructor
  · intro h
    have h2 : ∀ l ∈ lines, skipLine l = true ∨ lineHasEq l = true :=
      fun l hl => .inl (h l hl)
    rw [parse_config_file, parseLoop_ok lines 1 [] h2]
    have hnil : lines.filterMap lineEntry = [] := by
      rw [List.filterMap_eq_nil_iff]
      intro l hl
      rw [lineEntry_eq]
      simp [h l hl]
    rw [hnil]
    rfl
  · intro i hi hskip heq hfirst
    rw [parse_config_file, parseLoop_error lines 1 [] i hi hskip heq hfirst,
      Nat.add_comm 1 i]

/-- Witness for C6: a comments-and-blanks file parses to the empty
mapping, and a line without `=` fails with its 1-based number and
content. -/
theorem c6_witness :
    parse_config_file ["# only", "", "   "] = .ok [] ∧
    parse_config_file ["a=1", "# c", "bad"] = .error (.invalidFormat 3 "bad") := by
  constructor
  · exact (c6_line_handling ["# only", "", "   "]).1 (by decide)
  · have h := (c6_line_handling ["a=1", "# c", "bad"]).2 2 (by decide) (by decide)
      (by decide) (by decide)
    simpa using h

/-- C7: `create_nested_config` fails naming the missing key when `title`,
`bgg_username` or `github_repo` is absent (checked in that order, no
default substituted), and with all three present builds the nested
structure from their values. -/
theorem c7_required_fields (config : List (String × String))
    (envToken : Option String) (cands : List (Option (List String))) :
    (cfgGet config "title" = none →
      create_nested_config config envToken cands = .error "title") ∧
    (∀ t, cfgGet config "title" = some t → cfgGet config "bgg_username" = none →
      create_nested_config config envToken cands = .error "bgg_username") ∧
    (∀ t u, cfgGet config "title" = some t → cfgGet config "bgg_username" = some u →
      cfgGet config "github_repo" = none →
      create_nested_config config envToken cands = .error "github_repo") ∧
    (∀ t u r, cfgGet config "title" = some t → cfgGet config "bgg_username" = some u →
      cfgGet config "github_repo" = some r →
      ∃ tok, create_nested_config config envToken cands = .ok ⟨t, u, r, tok⟩) := by
  refine ⟨?_, ?_, ?_, ?_⟩
  · intro h; simp [create_nested_config, h]
  · intro t ht hu; simp [create_nested_config, ht, hu]
  · intro t u ht hu hr; simp [create_nested_config, ht, hu, hr]
  · intro t u r ht hu hr
    simp only [create_nested_config, ht, hu, hr]
    by_cases h1 : optTruthy (if optTruthy envToken then envToken else dotenvLoop envToken cands)
    · exact ⟨if optTruthy envToken then envToken else dotenvLoop envToken cands,
        by simp [h1]⟩
    · cases hbt : cfgGet config "bgg_token" with
      | some c => exact ⟨some c, by simp [h1, hbt]⟩
      | none => exact ⟨none, by simp [h1, hbt]⟩

/-- Witness for C7: a missing `title` is named; a complete flat config
builds the nested structure. -/
theorem c7_witness :
    create_nested_config [("bgg_username", "u")] none [] = .error "title" ∧
    ∃ tok, create_nested_config
      [("title", "t"), ("bgg_username", "u"), ("github_repo", "r")] none [] =
        .ok ⟨"t", "u", "r", tok⟩ := by
  constructor
  · exact (c7_required_fields [("bgg_username", "u")] none []).1 (by decide)
  · exact (c7_required_fields [("title", "t"), ("bgg_username", "u"), ("github_repo", "r")]
      none []).2.2.2 "t" "u" "r" (by decide) (by decide) (by decide)

/-- C1 (amended): with the three required keys present, the resolved
token is the environment variable when it is set to a non-empty value;
otherwise the first candidate dotenv file whose first
`GAMECACHE_BGG_TOKEN=` line yields a non-empty trimmed value; otherwise
the flat config's `bgg_token` field when present; and when none of the
three yield a value the token field is absent and no error is raised. -/
theorem c1_token_resolution (config : List (String × String))
    (envToken : Option String) (cands : List (Option (List String)))
    (t u r : String)
    (ht : cfgGet config "title" = some t)
    (hu : cfgGet config "bgg_username" = some u)
    (hr : cfgGet config "github_repo" = some r) :
    create_nested_config config envToken cands =
      .ok ⟨t, u, r, specResolvedToken envToken cands config⟩ := by
  simp only [create_nested_config, ht, hu, hr]
  by_cases he : optTruthy envToken
  · simp [he, specResolvedToken]
  · have hef : optTruthy envToken = false := by
      revert he; cases optTruthy envToken <;> simp
    have hn := dotenvLoop_norm cands envToken hef
    simp only [hef, Bool.false_eq_true, if_false, ite_false]
    by_cases hd : optTruthy (dotenvLoop envToken cands)
    · have hfst : firstNonEmptyFileValue cands = dotenvLoop envToken cands := by
        rw [← hn]; simp [optNorm, hd]
      simp [hd, specResolvedToken, hef, hfst]
      cases hdv : dotenvLoop envToken cands with
      | none => rw [hdv] at hd; simp [optTruthy] at hd
      | some v => simp
    · have hfst : firstNonEmptyFileValue cands = none := by
        rw [← hn]; simp [optNorm, hd]
      have hdf : optTruthy (dotenvLoop envToken cands) = false := by
        revert hd; cases optTruthy (dotenvLoop envToken cands) <;> simp
      simp only [hdf, Bool.false_eq_true, if_false, ite_false, specResolvedToken,
        hef, hfst]
      cases hbt : cfgGet config "bgg_token" <;> simp [hbt]

/-- Counterexample for C1 as stated: with the environment variable set to
the empty string, the claim resolves the token to that environment value,
but the code treats a falsy environment value as unset and takes the
dotenv file's value instead. -/
theorem c1_counterexample :
    create_nested_config [("title", "t"), ("bgg_username", "u"), ("github_repo", "r")]
        (some "") [some ["GAMECACHE_BGG_TOKEN=FILE"]] =
      .ok ⟨"t", "u", "r", some "FILE"⟩ ∧
    (some "FILE" : Option String) ≠ some "" := by decide

/-- Witness for C1 at a concrete input: environment unset, dotenv
candidates without a matching line, flat config carrying `bgg_token`. -/
theorem c1_witness :
    create_nested_config
        [("title", "t"), ("bgg_username", "u"), ("github_repo", "r"), ("bgg_token", "C")]
        none [some ["X=1"]] =
      .ok ⟨"t", "u", "r", some "C"⟩ := by
  have h := c1_token_resolution
    [("title", "t"), ("bgg_username", "u"), ("github_repo", "r"), ("bgg_token", "C")]
    none [some ["X=1"]] "t" "u" "r" (by decide) (by decide) (by decide)
  rw [h]
  decide

/-- C3 (amended): the call succeeds with the payload's token exactly when
the payload is a non-empty object whose `success` and `token` values are
both truthy (for a boolean flag and a string token this is `success:
true` and a non-empty token); a non-empty payload failing this is
surfaced for diagnosis; an absent payload — or an empty object, which is
falsy in Python — is reported as no response data. -/
theorem c3_response_interpretation (data : Option Payload) :
    (∀ t, generate_token_via_worker data = .success t ↔
      ∃ d, data = some d ∧ d ≠ [] ∧ pyTruthy (dget d "success") = true ∧
        pyTruthy (dget d "token") = true ∧ t = dget d "token") ∧
    (∀ d, generate_token_via_worker data = .unexpected d ↔
      data = some d ∧ d ≠ [] ∧
        ¬(pyTruthy (dget d "success") = true ∧ pyTruthy (dget d "token") = true)) ∧
    (generate_token_via_worker data = .noData ↔ data = none ∨ data = some []) := by
  cases data with
  | none => refine ⟨?_, ?_, ?_⟩ <;> simp [generate_token_via_worker]
  | some d =>
    cases d with
    | nil => refine ⟨?_, ?_, ?_⟩ <;> simp [generate_token_via_worker]
    | cons p ps =>
      by_cases hs : pyTruthy (dget (p :: ps) "success") = true
      · by_cases htk : pyTruthy (dget (p :: ps) "token") = true
        · have hval : generate_token_via_worker (some (p :: ps)) =
              .success (dget (p :: ps) "token") := by
            simp [generate_token_via_worker, hs, htk]
          refine ⟨?_, ?_, ?_⟩
          · intro t
            rw [hval]
            constructor
            · intro hres
              cases hres
              exact ⟨p :: ps, rfl, by simp, hs, htk, rfl⟩
            · rintro ⟨d, hd, -, -, -, hteq⟩
              cases hd
              rw [hteq]
          · intro d
            rw [hval]
            constructor
            · intro hres; cases hres
            · rintro ⟨hd, -, hno⟩
              cases hd
              exact absurd ⟨hs, htk⟩ hno
          · rw [hval]; simp
        · have htkf : pyTruthy (dget (p :: ps) "token") = false := by
            revert htk; cases pyTruthy (dget (p :: ps) "token") <;> simp
          have hval : generate_token_via_worker (some (p :: ps)) =
              .unexpected (p :: ps) := by
            simp [generate_token_via_worker, htkf]
          refine ⟨?_, ?_, ?_⟩
          · intro t
            rw [hval]
            constructor
            · intro hres; cases hres
            · rintro ⟨d, hd, -, -, htk2, -⟩
              cases hd
              exact absurd htk2 htk
          · intro d
            rw [hval]
            constructor
            · intro hres
              cases hres
              exact ⟨rfl, by simp, fun hb => htk hb.2⟩
            · rintro ⟨hd, -, -⟩
              cases hd
              rfl
          · rw [hval]; simp
      · have hsf : pyTruthy (dget (p :: ps) "success") = false := by
          revert hs; cases pyTruthy (dget (p :: ps) "success") <;> simp
        have hval : generate_token_via_worker (some (p :: ps)) =
            .unexpected (p :: ps) := by
          simp [generate_token_via_worker, hsf]
        refine ⟨?_, ?_, ?_⟩
        · intro t
          rw [hval]
          constructor
          · intro hres; cases hres
          · rintro ⟨d, hd, -, hs2, -, -⟩
            cases hd
            exact absurd hs2 hs
        · intro d
          rw [hval]
          constructor
          · intro hres
            cases hres
            exact ⟨rfl, by simp, fun hb => hs hb.1⟩
          · rintro ⟨hd, -, -⟩
            cases hd
            rfl
        · rw [hval]; simp

/-- Witness for C3: the payload with `success: true` and token `abc123`
is accepted as success carrying that token. -/
theorem c3_witness :
    generate_token_via_worker (some [("success", .bool true), ("token", .str "abc123")]) =
      .success (.str "abc123") := by
  have h := (c3_response_interpretation
    (some [("success", PyVal.bool true), ("token", PyVal.str "abc123")])).1
    (PyVal.str "abc123")
  exact h.mpr ⟨_, rfl, by decide, by decide, by decide, by decide⟩

/-- Counterexample for C3 as stated: the empty payload `{}` has a missing
success flag, so the claim requires the failure that surfaces the full
payload, but the empty object is falsy in Python and the code reports the
no-response-data failure instead. -/
theorem c3_counterexample :
    generate_token_via_worker (some ([] : Payload)) = .noData ∧
    generate_token_via_worker (some ([] : Payload)) ≠ .unexpected [] := by decide

/-- C4 (amended): `save_token_to_config` mutates only the sibling `.env`
path derived from the config path's directory; every other path — in
particular the primary config file, provided its own file name is not
`.env` — keeps its contents. -/
theorem c4_frame (token : String) (cp : FsPath)
    (fs : FsPath → Option (List String)) :
    (∀ p, p ≠ envPathOf cp → (save_token_fs token cp fs).1 p = fs p) ∧
    (cp.base ≠ ".env" → (save_token_fs token cp fs).1 cp = fs cp) := by
  constructor
  · intro p hp
    simp [save_token_fs, hp]
  · intro hb
    have hne : cp ≠ envPathOf cp := by
      intro h
      exact hb (congrArg FsPath.base h)
    simp [save_token_fs, hne]

/-- Witness for C4 at a concrete filesystem: writing the token leaves the
config file `d/config.ini` untouched. -/
theorem c4_witness :
    (save_token_fs "T" ⟨"d", "config.ini"⟩
        (fun p => if p = ⟨"d", "config.ini"⟩ then some ["title=x\n"] else none)).1
      ⟨"d", "config.ini"⟩ = some ["title=x\n"] := by
  have h := (c4_frame "T" ⟨"d", "config.ini"⟩
    (fun p => if p = ⟨"d", "config.ini"⟩ then some ["title=x\n"] else none)).2
    (by decide)
  rw [h]
  decide

/-- Counterexample for C4 as stated: when the config path itself names a
`.env` file, the derived sibling secrets path coincides with it, and the
"primary config file" is rewritten. -/
theorem c4_counterexample :
    (save_token_fs "T" ⟨"d", ".env"⟩
        (fun p => if p = ⟨"d", ".env"⟩ then some ["a=1\n"] else none)).1
      ⟨"d", ".env"⟩ ≠
    (fun p : FsPath => if p = ⟨"d", ".env"⟩ then some ["a=1\n"] else none)
      ⟨"d", ".env"⟩ := by decide

end Gamecache
